import Mathlib

/-!
Verification of the skillian/errors Go library against its specification.

The repository is an error-representation library built around three carriers:
the struct `Error` (wrapped error `Err` plus optional `Cause`, `Context` and a
captured stack trace), the flattening aggregate `Errors` (an ordered member
list), and a mutex-guarded concurrent collector.  The repository holds several
historical revisions of the same design; where two revisions of one function
conflict, the revision the specification describes is embedded and the
divergence of the superseded draft is noted in comments.

Shallow embedding conventions:
- a Go `error` interface value is a `GoError`; a possibly-nil `error` is an
  `Option GoError`.  `none` is the nil interface value.
- opaque leaf errors (as produced by `errors.New`) carry a numeric identity
  standing for the pointer identity Go compares with `==`, plus their message.
- pointer values (`*Error`, `*Errors`) carry a numeric identity standing for
  the address; two pointers are `==` in Go iff the identities agree.
- the captured program-counter slice is represented by the stack-trace text it
  resolves to at render time (`none` when no trace was captured); frame
  resolution itself is a runtime facility outside the program text.
- Go slices of errors are Lean lists; the zero-value (nil, zero-capacity)
  slice is the empty list.
- functions whose Go originals can panic return `Except String α`, with
  `Except.error` carrying the panic message.
-/

namespace SkErrors

/-- GoError models a non-nil Go `error` interface value as seen by this
library: an opaque leaf, an `Error` value, a pointer to an `Error`, an
`Errors` aggregate value, or a pointer to an `Errors` aggregate. -/
inductive GoError : Type where
  /-- an opaque error (for example from `errors.New`); `id` models pointer
  identity, `msg` the text returned by its `Error()` method. -/
  | leaf (id : Nat) (msg : String)
  /-- an `errors.Error` struct value: wrapped error, optional cause, optional
  context, optional captured stack trace (as the text it resolves to). -/
  | errVal (inner cause ctx : Option GoError) (trace : Option String)
  /-- a `*errors.Error`; `id` models the address. -/
  | errPtr (id : Nat) (inner cause ctx : Option GoError) (trace : Option String)
  /-- an `errors.Errors` aggregate value with its member slice. -/
  | errorsVal (members : List (Option GoError))
  /-- a `*errors.Errors`; `id` models the address. -/
  | errorsPtr (id : Nat) (members : List (Option GoError))

/-- isAgg decides whether a possibly-nil error is an aggregate: an `Errors`
value or a pointer to one. -/
def isAgg : Option GoError → Bool
  | some (GoError.errorsVal _) => true
  | some (GoError.errorsPtr _ _) => true
  | _ => false

/-- WrapDeferred embeds `WrapDeferred` from `wrap.go`: the first argument is
the `*error` slot (`none` models a nil pointer, `some slot` a pointer at a
slot currently holding `slot`); the second is the deferred callback.  The
result is the slot content after the call, or the panic message.  A draft of
the same function in `errors.go` has the nil test inverted (it dereferences
the pointer exactly when it is nil and otherwise always wraps, even when the
slot is empty); the `wrap.go` revision embedded here supersedes it. -/
def WrapDeferred (pErr : Option (Option GoError)) (f : Unit → Option GoError) :
    Except String (Option GoError) :=
  match pErr with
  | none => Except.error ("pErr error pointer is nil")
  | some slot =>
    match f () with
    | none => Except.ok slot
    | some err =>
      match slot with
      | none => Except.ok (some err)
      | some prev =>
        Except.ok (some (GoError.errVal (some err) none (some prev) none))

/-- Cause embeds the package-level `Cause` of `errors.go`: while the value is
an `Error` or a `*Error` it steps to the `Cause` field, returning the `Err`
field of the first such value whose `Cause` is nil; any other value is
returned unchanged. -/
def Cause (err : Option GoError) : Option GoError :=
  match err with
  | some (GoError.errVal i c _ _) =>
    match c with
    | none => i
    | some c2 => Cause (some c2)
  | some (GoError.errPtr _ i c _ _) =>
    match c with
    | none => i
    | some c2 => Cause (some c2)
  | _ => err
termination_by sizeOf err
decreasing_by all_goals (simp_wf; try omega)

/-- appendErrors embeds the `(*Errors).appendErrors` loop of the aggregate
revision: nil members are skipped, aggregate members (by value or pointer)
contribute their own members recursively, and any other member is appended. -/
def appendErrors (acc : List (Option GoError)) (errs : List (Option GoError)) :
    List (Option GoError) :=
  match errs with
  | [] => acc
  | none :: rest => appendErrors acc rest
  | some (GoError.errorsVal ms) :: rest =>
    appendErrors (appendErrors acc ms) rest
  | some (GoError.errorsPtr _ ms) :: rest =>
    appendErrors (appendErrors acc ms) rest
  | some e :: rest => appendErrors (acc ++ [some e]) rest
termination_by sizeOf errs
decreasing_by all_goals (simp_wf; try omega)

/-- Aggregate embeds `Aggregate` of the aggregate revision: it flattens the
argument list through `appendErrors` starting from an empty member slice and
returns nil when no members remain.  The capacity pre-allocation
(`1 << bits.Len`) in the source affects no observable value and is dropped. -/
def Aggregate (errs : List (Option GoError)) : Option GoError :=
  if (appendErrors [] errs).length = 0 then none
  else some (GoError.errorsVal (appendErrors [] errs))

/-- ErrorsUnwrap embeds `(Errors).Unwrap`: it builds a new aggregate over the
member slice from index 1 and returns nil if that leaves nothing.  On an
empty member slice the reslicing `es.errors[1:]` is out of range for the
zero-capacity zero value, which panics in Go. -/
def ErrorsUnwrap (ms : List (Option GoError)) : Except String (Option GoError) :=
  match ms with
  | [] => Except.error ("slice bounds out of range")
  | _ :: tail =>
    if tail.length = 0 then Except.ok none
    else Except.ok (some (GoError.errorsVal tail))

mutual

/-- specLeaves is modelled from the words of the specification, for comparison
with `appendErrors`: the non-aggregate leaves of a possibly-nil error, where a
nil contributes nothing, an aggregate (value or pointer) contributes the
leaves of its members in order, and anything else contributes itself. -/
def specLeaves (e : Option GoError) : List (Option GoError) :=
  match e with
  | none => []
  | some (GoError.errorsVal ms) => specLeavesList ms
  | some (GoError.errorsPtr _ ms) => specLeavesList ms
  | some e2 => [some e2]
termination_by sizeOf e
decreasing_by all_goals (simp_wf; try omega)

/-- specLeavesList extends `specLeaves` over a member list, splicing each
element in place. -/
def specLeavesList (errs : List (Option GoError)) : List (Option GoError) :=
  match errs with
  | [] => []
  | e :: rest => specLeaves e ++ specLeavesList rest
termination_by sizeOf errs
decreasing_by all_goals (simp_wf; try omega)

end

mutual

/-- errText embeds the dynamic dispatch of the `Error()` method over the
model: a leaf returns its message; an `Error` (by value or through a pointer)
joins, with a newline separator, the inner text, the stack-trace section
(empty when no trace was captured), the `Cause` section (empty when `Cause` is
nil, otherwise the fixed label followed by the rendered cause, as
`fmt.Sprintf` applied to an error invokes its `Error()` method), and the
symmetric `Context` section, exactly as `(Error).Error` of `errors.go` does
with `strings.Join`; an `Errors` aggregate renders its member count, the fixed
label ` errors: `, and the comma-joined member texts, as `(Errors).Error`
does. -/
def errText (e : GoError) : String :=
  match e with
  | GoError.leaf _ m => m
  | GoError.errVal i c x tr =>
    String.intercalate ("\n")
      [errTextOpt i,
       tr.getD (""),
       (match c with
        | none => ("")
        | some cv => ("Cause:  ") ++ errText cv),
       (match x with
        | none => ("")
        | some xv => ("Context:  ") ++ errText xv)]
  | GoError.errPtr _ i c x tr =>
    String.intercalate ("\n")
      [errTextOpt i,
       tr.getD (""),
       (match c with
        | none => ("")
        | some cv => ("Cause:  ") ++ errText cv),
       (match x with
        | none => ("")
        | some xv => ("Context:  ") ++ errText xv)]
  | GoError.errorsVal ms => toString ms.length ++ (" errors: ") ++ commaJoined ms
  | GoError.errorsPtr _ ms => toString ms.length ++ (" errors: ") ++ commaJoined ms
termination_by sizeOf e
decreasing_by all_goals (simp_wf; try omega)

/-- errTextOpt renders a possibly-nil error.  Calling the `Error()` method on
the nil interface value panics in Go; the marker string below stands for that
unreachable call (no theorem in this development renders a nil error). -/
def errTextOpt (o : Option GoError) : String :=
  match o with
  | none => ("PANIC: Error method called on nil error")
  | some e => errText e
termination_by sizeOf o
decreasing_by all_goals (simp_wf; try omega)

/-- commaJoined embeds the member loop of `(Errors).Error`, writing `, `
between consecutive member texts. -/
def commaJoined (ms : List (Option GoError)) : String :=
  match ms with
  | [] => ("")
  | [m] => errTextOpt m
  | m :: rest => errTextOpt m ++ (", ") ++ commaJoined rest
termination_by sizeOf ms
decreasing_by all_goals (simp_wf; try omega)

end

/-- unjoinedTexts embeds `(unjoined).String` of `concurrent.go`:
`strings.Join` of the member texts with the four-space-indented newline
separator. -/
def unjoinedTexts (u : List (Option GoError)) : String :=
  match u with
  | [] => ("")
  | [m] => errTextOpt m
  | m :: rest => errTextOpt m ++ ("\n    ") ++ unjoinedTexts rest

/-- ConcurrentAdd embeds `(*ConcurrentErrors).Add`: the collector state is its
member slice (created empty), and adding appends under the mutex.  The mutex
serializes the concurrent `Add` calls into some total order; the state after N
calls is the concatenation in that order, which the theorems quantify over. -/
def ConcurrentAdd (state errs : List (Option GoError)) : List (Option GoError) :=
  state ++ errs

/-- ConcurrentErrText embeds `(*ConcurrentErrors).Err` composed with message
rendering: `Err` returns nil when the collector is empty and otherwise an
`Errorf` error whose message is `fmt.Sprintf` of the fixed format
`%d errors:` with the count and the lazily joined member texts.
`Errorf` also captures a stack snapshot whose resolved text depends on the
runtime call site, not on program values; this model carries the message text,
which the full render places first. -/
def ConcurrentErrText (state : List (Option GoError)) : Option String :=
  if state.length = 0 then none
  else some (toString state.length ++ (" errors:\n    ") ++ unjoinedTexts state)

/-- goComparable records which dynamic types of the model Go treats as
comparable: leaves (pointers to `errorString`) and the two pointer types;
`Error` carries a program-counter slice and `Errors` a member slice, so both
struct types are not comparable. -/
def goComparable : GoError → Bool
  | GoError.leaf _ _ => true
  | GoError.errPtr _ _ _ _ _ => true
  | GoError.errorsPtr _ _ => true
  | _ => false

/-- goEq embeds the Go interface equality `err == target` on comparable
dynamic types: values of different dynamic types are unequal, and the
comparable types of the model compare by identity. -/
def goEq : GoError → GoError → Bool
  | GoError.leaf i _, GoError.leaf j _ => i == j
  | GoError.errPtr i _ _ _ _, GoError.errPtr j _ _ _ _ => i == j
  | GoError.errorsPtr i _, GoError.errorsPtr j _ => i == j
  | _, _ => false

/-- goEqOpt extends `goEq` to a possibly-nil left operand (nil never equals a
non-nil target). -/
def goEqOpt : Option GoError → GoError → Bool
  | none, _ => false
  | some e, t => goEq e t

/-- exAnd is the Go short-circuit `&&` lifted over panics: a panic on the left
propagates, a false left operand suppresses the right one entirely. -/
def exAnd (a b : Except String Bool) : Except String Bool :=
  match a with
  | Except.ok true => b
  | Except.ok false => Except.ok false
  | Except.error s => Except.error s

/-- exOr is the Go short-circuit `||` lifted over panics: a panic on the left
propagates, a true left operand suppresses the right one entirely. -/
def exOr (a b : Except String Bool) : Except String Bool :=
  match a with
  | Except.ok true => Except.ok true
  | Except.ok false => b
  | Except.error s => Except.error s

mutual

/-- goIs embeds `errors.Is` of the Go standard library, to which the package
forwards its `Is`: with a nil target it reports whether the error is nil, and
otherwise enters the unwrap loop. -/
def goIs (err target : Option GoError) : Except String Bool :=
  match target with
  | none => Except.ok err.isNone
  | some t => goIsLoop err t
termination_by (sizeOf err + sizeOf target, 4)
decreasing_by all_goals (simp_wf; simp only [Prod.lex_def, true_and]; omega)

/-- goIsLoop is one iteration of the `errors.Is` loop: the interface equality
test (guarded by comparability of the target), then the dynamic `Is` method
of the error if it has one, then the step through `Unwrap` if the error has
one, and failure otherwise. -/
def goIsLoop (err : Option GoError) (t : GoError) : Except String Bool :=
  if goComparable t && goEqOpt err t then Except.ok true
  else exOr (selfIsM err t) (unwrapStepM err t)
termination_by (sizeOf err + sizeOf t, 3)
decreasing_by all_goals (simp_wf; simp only [Prod.lex_def, true_and]; omega)

/-- selfIsM dispatches the dynamic `Is` method: `Error` and `*Error` run
`(Error).Is`, `Errors` and `*Errors` run `(Errors).Is` (value-receiver
methods belong to the pointer method set as well), and the other dynamic
types have no `Is` method. -/
def selfIsM (err : Option GoError) (t : GoError) : Except String Bool :=
  match err with
  | some (GoError.errVal i c x _) => errorIsCore i c x (some t)
  | some (GoError.errPtr _ i c x _) => errorIsCore i c x (some t)
  | some (GoError.errorsVal ms) => errorsIsCore ms (some t)
  | some (GoError.errorsPtr _ ms) => errorsIsCore ms (some t)
  | _ => Except.ok false
termination_by (sizeOf err + sizeOf t, 2)
decreasing_by all_goals (simp_wf; simp only [Prod.lex_def, true_and]; omega)

/-- unwrapStepM is the `Unwrap` step of the `errors.Is` loop: only the
aggregate types have an `Unwrap` method; its body `(Errors).Unwrap` is
inlined here (reslicing from index 1 panics on an empty member slice, a new
aggregate over the tail is built otherwise, and nil ends the loop with
failure). -/
def unwrapStepM (err : Option GoError) (t : GoError) : Except String Bool :=
  match err with
  | some (GoError.errorsVal ms) =>
    match ms with
    | [] => Except.error ("slice bounds out of range")
    | _ :: tail =>
      if tail.length = 0 then Except.ok false
      else goIsLoop (some (GoError.errorsVal tail)) t
  | some (GoError.errorsPtr _ ms) =>
    match ms with
    | [] => Except.error ("slice bounds out of range")
    | _ :: tail =>
      if tail.length = 0 then Except.ok false
      else goIsLoop (some (GoError.errorsVal tail)) t
  | _ => Except.ok false
termination_by (sizeOf err + sizeOf t, 2)
decreasing_by all_goals (simp_wf; simp only [Prod.lex_def, true_and]; omega)

/-- errorIsCore embeds `(Error).Is` of `errors.go` applied to the three error
fields of the receiver (the trace field plays no role in matching): against a
target that is itself an `Error` value it requires the inner errors to match
and the `Cause` and `Context` pair rules to hold; against any other target it
matches the inner error, or a non-nil `Cause`, or a non-nil `Context`. -/
def errorIsCore (i c x : Option GoError) (tgt : Option GoError) :
    Except String Bool :=
  match tgt with
  | some (GoError.errVal i2 c2 x2 _) =>
    exAnd (goIs i i2) (exAnd (nilPairRule c c2) (nilPairRule x x2))
  | t2 =>
    exOr (goIs i t2)
      (exOr
        (match c with
         | none => Except.ok false
         | some cv => goIs (some cv) t2)
        (match x with
         | none => Except.ok false
         | some xv => goIs (some xv) t2))
termination_by (sizeOf i + sizeOf c + sizeOf x + sizeOf tgt, 6)
decreasing_by all_goals (simp_wf; simp only [Prod.lex_def, true_and]; omega)

/-- nilPairRule embeds the parenthesized clause of `(Error).Is` for the
`Cause` and `Context` fields: both nil, or both non-nil and matching. -/
def nilPairRule (a b : Option GoError) : Except String Bool :=
  match a, b with
  | none, none => Except.ok true
  | some av, some bv => goIs (some av) (some bv)
  | _, _ => Except.ok false
termination_by (sizeOf a + sizeOf b, 5)
decreasing_by all_goals (simp_wf; simp only [Prod.lex_def, true_and]; omega)

/-- errorsIsCore embeds `(Errors).Is`: against an aggregate target (pointer
first in the source, then value) it compares member lists; against anything
else it searches the members. -/
def errorsIsCore (ms : List (Option GoError)) (tgt : Option GoError) :
    Except String Bool :=
  match tgt with
  | some (GoError.errorsPtr _ ms2) => errorsEqualCore ms ms2
  | some (GoError.errorsVal ms2) => errorsEqualCore ms ms2
  | t2 => anyIsCore ms t2
termination_by (sizeOf ms + sizeOf tgt, 2)
decreasing_by all_goals (simp_wf; simp only [Prod.lex_def, true_and]; omega)

/-- errorsEqualCore embeds `(Errors).errorsEqual`: unequal lengths fail, and
otherwise the members must match pairwise in order. -/
def errorsEqualCore (ms1 ms2 : List (Option GoError)) : Except String Bool :=
  if ms1.length = ms2.length then allIsCore ms1 ms2 else Except.ok false
termination_by (sizeOf ms1 + sizeOf ms2, 1)
decreasing_by all_goals (simp_wf; simp only [Prod.lex_def, true_and]; omega)

/-- allIsCore is the pairwise loop of `errorsEqual` over the receiver members
(the arm with a shorter second list is unreachable under the length guard,
where the Go loop would index out of range). -/
def allIsCore (ms1 ms2 : List (Option GoError)) : Except String Bool :=
  match ms1, ms2 with
  | [], _ => Except.ok true
  | a :: r1, b :: r2 => exAnd (goIs a b) (allIsCore r1 r2)
  | _ :: _, [] => Except.ok true
termination_by (sizeOf ms1 + sizeOf ms2, 0)
decreasing_by all_goals (simp_wf; simp only [Prod.lex_def, true_and]; omega)

/-- anyIsCore is the member search loop of `(Errors).Is` for a non-aggregate
target. -/
def anyIsCore (ms : List (Option GoError)) (tgt : Option GoError) :
    Except String Bool :=
  match ms with
  | [] => Except.ok false
  | a :: rest => exOr (goIs a tgt) (anyIsCore rest tgt)
termination_by (sizeOf ms + sizeOf tgt, 1)
decreasing_by all_goals (simp_wf; simp only [Prod.lex_def, true_and]; omega)

end

/-- appendErrors appends exactly the recursively collected non-aggregate
leaves of its argument list to the accumulator, in order. -/
theorem appendErrors_eq (errs acc : List (Option GoError)) :
    appendErrors acc errs = acc ++ specLeavesList errs := by
  match errs with
  | [] => simp [appendErrors, specLeavesList]
  | none :: rest =>
    simp [appendErrors, specLeavesList, specLeaves, appendErrors_eq rest acc]
  | some (GoError.errorsVal ms) :: rest =>
    simp [appendErrors, specLeavesList, specLeaves, appendErrors_eq ms acc,
      appendErrors_eq rest (acc ++ specLeavesList ms)]
  | some (GoError.errorsPtr p ms) :: rest =>
    simp [appendErrors, specLeavesList, specLeaves, appendErrors_eq ms acc,
      appendErrors_eq rest (acc ++ specLeavesList ms)]
  | some (GoError.leaf i m) :: rest =>
    simp [appendErrors, specLeavesList, specLeaves,
      appendErrors_eq rest (acc ++ [some (GoError.leaf i m)])]
  | some (GoError.errVal i c x tr) :: rest =>
    simp [appendErrors, specLeavesList, specLeaves,
      appendErrors_eq rest (acc ++ [some (GoError.errVal i c x tr)])]
  | some (GoError.errPtr p i c x tr) :: rest =>
    simp [appendErrors, specLeavesList, specLeaves,
      appendErrors_eq rest (acc ++ [some (GoError.errPtr p i c x tr)])]
termination_by sizeOf errs
decreasing_by all_goals (simp_wf; try omega)

mutual

/-- specLeaves never produces an aggregate element. -/
theorem specLeaves_no_agg (e : Option GoError) :
    ∀ m ∈ specLeaves e, isAgg m = false := by
  match e with
  | none => simp [specLeaves]
  | some (GoError.errorsVal ms) =>
    simpa [specLeaves] using specLeavesList_no_agg ms
  | some (GoError.errorsPtr p ms) =>
    simpa [specLeaves] using specLeavesList_no_agg ms
  | some (GoError.leaf i m) => simp [specLeaves, isAgg]
  | some (GoError.errVal i c x tr) => simp [specLeaves, isAgg]
  | some (GoError.errPtr p i c x tr) => simp [specLeaves, isAgg]
termination_by sizeOf e
decreasing_by all_goals (simp_wf; try omega)

/-- specLeavesList never produces an aggregate element. -/
theorem specLeavesList_no_agg (errs : List (Option GoError)) :
    ∀ m ∈ specLeavesList errs, isAgg m = false := by
  match errs with
  | [] => simp [specLeavesList]
  | e :: rest =>
    intro m hm
    rw [specLeavesList] at hm
    rcases List.mem_append.mp hm with h | h
    · exact specLeaves_no_agg e m h
    · exact specLeavesList_no_agg rest m h
termination_by sizeOf errs
decreasing_by all_goals (simp_wf; try omega)

end

/-- specLeaves of a non-aggregate error is that error alone. -/
theorem specLeaves_single (e : GoError) (h : isAgg (some e) = false) :
    specLeaves (some e) = [some e] := by
  cases e with
  | leaf i m => simp [specLeaves]
  | errVal i c x tr => simp [specLeaves]
  | errPtr p i c x tr => simp [specLeaves]
  | errorsVal ms => simp [isAgg] at h
  | errorsPtr p ms => simp [isAgg] at h

/-- Folding single-error Add calls over the empty collector yields the call
list itself. -/
theorem concurrentAddAll_eq (adds : List (Option GoError)) :
    List.foldl (fun s e => ConcurrentAdd s [e]) [] adds = adds := by
  have h : ∀ s, List.foldl (fun s e => ConcurrentAdd s [e]) s adds = s ++ adds := by
    induction adds with
    | nil => intro s; simp
    | cons hd tl ih =>
      intro s
      rw [List.foldl_cons, ih]
      simp [ConcurrentAdd]
  simpa using h []

/-- exAnd yields true exactly when both operands do. -/
theorem exAnd_ok_true (a b : Except String Bool) :
    exAnd a b = Except.ok true ↔ a = Except.ok true ∧ b = Except.ok true := by
  cases a with
  | error s => simp [exAnd]
  | ok v => cases v <;> simp [exAnd]

/-- nilPairRule yields true exactly when both operands are nil, or both are
non-nil and match. -/
theorem nilPairRule_ok_true (a b : Option GoError) :
    nilPairRule a b = Except.ok true ↔
      ((a = none ∧ b = none)
        ∨ (a ≠ none ∧ b ≠ none ∧ goIs a b = Except.ok true)) := by
  cases a <;> cases b <;> simp [nilPairRule]

/-- C1: for every error slot pointed at by the provided pointer and every
deferred callback, after WrapDeferred runs: a nil callback result leaves the
slot unchanged; a non-nil callback error occupies a previously empty slot
exactly, unwrapped; and a non-nil callback error over a slot previously
holding an error leaves an Error whose inner is the callback error and whose
Context is the prior slot value. -/
theorem wrapDeferred_merge (slot : Option GoError) (f : Unit → Option GoError) :
    (f () = none → WrapDeferred (some slot) f = Except.ok slot)
    ∧ (∀ y, f () = some y → slot = none →
        WrapDeferred (some slot) f = Except.ok (some y))
    ∧ (∀ y x, f () = some y → slot = some x →
        WrapDeferred (some slot) f =
          Except.ok (some (GoError.errVal (some y) none (some x) none))) := by
  refine ⟨?_, ?_, ?_⟩
  · intro h; simp [WrapDeferred, h]
  · intro y hy hs; subst hs; simp [WrapDeferred, hy]
  · intro y x hy hs; subst hs; simp [WrapDeferred, hy]

/-- Witness for C1 at concrete inputs: an empty slot takes the callback error
directly, and an occupied slot moves to the Context field of the wrap. -/
theorem wrapDeferred_merge_witness :
    WrapDeferred (some none) (fun _ => some (GoError.leaf 1 ("y"))) =
        Except.ok (some (GoError.leaf 1 ("y")))
    ∧ WrapDeferred (some (some (GoError.leaf 0 ("x"))))
        (fun _ => some (GoError.leaf 1 ("y"))) =
        Except.ok (some (GoError.errVal (some (GoError.leaf 1 ("y"))) none
          (some (GoError.leaf 0 ("x"))) none)) :=
  ⟨(wrapDeferred_merge none (fun _ => some (GoError.leaf 1 ("y")))).2.1
      (GoError.leaf 1 ("y")) rfl rfl,
   (wrapDeferred_merge (some (GoError.leaf 0 ("x")))
      (fun _ => some (GoError.leaf 1 ("y")))).2.2
      (GoError.leaf 1 ("y")) (GoError.leaf 0 ("x")) rfl rfl⟩

/-- C9: calling WrapDeferred with a nil slot pointer fails by panic for every
deferred callback, whether the callback would return nil or an error; the
callback is not even invoked. -/
theorem wrapDeferred_nil_pointer (f : Unit → Option GoError) :
    WrapDeferred none f = Except.error ("pErr error pointer is nil") := rfl

/-- C2: Aggregate flattens totally and in order: the result is nil exactly
when the recursively collected non-aggregate leaves of the input sequence are
empty, otherwise it is the aggregate over exactly those leaves spliced at the
position of the aggregate member they came from, and no member of the result
is itself an aggregate, neither an Errors value nor a pointer to one. -/
theorem aggregate_flattens (errs : List (Option GoError)) :
    Aggregate errs =
      (if (specLeavesList errs).length = 0 then none
       else some (GoError.errorsVal (specLeavesList errs)))
    ∧ ∀ m ∈ specLeavesList errs, isAgg m = false := by
  constructor
  · simp only [Aggregate, appendErrors_eq, List.nil_append]
  · exact specLeavesList_no_agg errs

/-- Witness for C2 at a concrete nested input: the sole member of the
flattened aggregate is not an aggregate. -/
theorem aggregate_flattens_witness :
    isAgg (some (GoError.leaf 0 ("a"))) = false :=
  (aggregate_flattens
      [some (GoError.errorsVal [some (GoError.leaf 0 ("a"))])]).2
    (some (GoError.leaf 0 ("a")))
    (by simp [specLeavesList, specLeaves])

/-- C8: aggregating an empty sequence, or a sequence of nils only, yields no
error rather than an empty aggregate value. -/
theorem aggregate_empty_nil :
    Aggregate [] = none ∧ Aggregate [none, none] = none := by
  constructor <;> simp [Aggregate, appendErrors]

/-- C6: an aggregate built from three non-aggregate errors peels one member
per unwrap: the first unwrap drops exactly the first member preserving the
order of the rest, the second likewise, and the third yields no error. -/
theorem peel_three (a b c : GoError) (ha : isAgg (some a) = false)
    (hb : isAgg (some b) = false) (hc : isAgg (some c) = false) :
    Aggregate [some a, some b, some c] =
        some (GoError.errorsVal [some a, some b, some c])
    ∧ ErrorsUnwrap [some a, some b, some c] =
        Except.ok (some (GoError.errorsVal [some b, some c]))
    ∧ ErrorsUnwrap [some b, some c] =
        Except.ok (some (GoError.errorsVal [some c]))
    ∧ ErrorsUnwrap [some c] = Except.ok none := by
  refine ⟨?_, ?_, ?_, ?_⟩
  · simp [Aggregate, appendErrors_eq, specLeavesList, specLeaves_single a ha,
      specLeaves_single b hb, specLeaves_single c hc]
  · simp [ErrorsUnwrap]
  · simp [ErrorsUnwrap]
  · simp [ErrorsUnwrap]

/-- Witness for C6 at three concrete leaf errors. -/
theorem peel_three_witness :
    Aggregate [some (GoError.leaf 0 ("a")), some (GoError.leaf 1 ("b")),
        some (GoError.leaf 2 ("c"))] =
      some (GoError.errorsVal [some (GoError.leaf 0 ("a")),
        some (GoError.leaf 1 ("b")), some (GoError.leaf 2 ("c"))])
    ∧ ErrorsUnwrap [some (GoError.leaf 0 ("a")), some (GoError.leaf 1 ("b")),
        some (GoError.leaf 2 ("c"))] =
      Except.ok (some (GoError.errorsVal [some (GoError.leaf 1 ("b")),
        some (GoError.leaf 2 ("c"))]))
    ∧ ErrorsUnwrap [some (GoError.leaf 1 ("b")), some (GoError.leaf 2 ("c"))] =
      Except.ok (some (GoError.errorsVal [some (GoError.leaf 2 ("c"))]))
    ∧ ErrorsUnwrap [some (GoError.leaf 2 ("c"))] = Except.ok none :=
  peel_three (GoError.leaf 0 ("a")) (GoError.leaf 1 ("b")) (GoError.leaf 2 ("c"))
    rfl rfl rfl

/-- C10: every aggregate Aggregate returns has at least one member; every
aggregate produced by a successful unwrap has at least one member; unwrap
cannot fail on a non-empty member slice; and the out-of-range panic occurs
exactly on the empty member slice of a hand-built zero value. -/
theorem aggregate_unwrap_inbounds :
    (∀ errs ms, Aggregate errs = some (GoError.errorsVal ms) → ms ≠ [])
    ∧ (∀ ms ms2, ErrorsUnwrap ms = Except.ok (some (GoError.errorsVal ms2)) →
        ms2 ≠ [])
    ∧ (∀ ms, ms ≠ ([] : List (Option GoError)) →
        ∃ r, ErrorsUnwrap ms = Except.ok r)
    ∧ ErrorsUnwrap [] = Except.error ("slice bounds out of range") := by
  refine ⟨?_, ?_, ?_, rfl⟩
  · intro errs ms h
    by_cases hl : (appendErrors [] errs).length = 0
    · simp [Aggregate, hl] at h
    · simp [Aggregate, hl] at h
      intro he
      rw [he] at h
      exact hl (by simp [h])
  · intro ms ms2 h
    match ms with
    | [] => simp [ErrorsUnwrap] at h
    | hd :: tl =>
      by_cases hl : tl.length = 0
      · simp [ErrorsUnwrap, hl] at h
      · simp [ErrorsUnwrap, hl] at h
        intro he
        rw [he] at h
        exact hl (by simp [h])
  · intro ms h
    match ms with
    | [] => exact absurd rfl h
    | hd :: tl =>
      by_cases hl : tl.length = 0
      · exact ⟨none, by simp [ErrorsUnwrap, hl]⟩
      · exact ⟨some (GoError.errorsVal tl), by simp [ErrorsUnwrap, hl]⟩

/-- Witness for C10 at a concrete singleton aggregate. -/
theorem aggregate_unwrap_inbounds_witness :
    ∃ r, ErrorsUnwrap [some (GoError.leaf 0 ("a"))] = Except.ok r :=
  aggregate_unwrap_inbounds.2.2.1 [some (GoError.leaf 0 ("a"))] (by simp)

/-- C4: the root-cause extraction follows only the Cause field: a nil input,
a leaf, and both aggregate shapes are returned unchanged immediately; an
Error or pointer to one with nil Cause yields its inner error; an Error or
pointer to one with non-nil Cause steps to that Cause; and the result is
independent of the Context field (and of the trace) at every step, so Context
is never traversed. -/
theorem cause_follows_only_cause :
    Cause none = none
    ∧ (∀ i m, Cause (some (GoError.leaf i m)) = some (GoError.leaf i m))
    ∧ (∀ ms, Cause (some (GoError.errorsVal ms)) = some (GoError.errorsVal ms))
    ∧ (∀ p ms, Cause (some (GoError.errorsPtr p ms)) =
        some (GoError.errorsPtr p ms))
    ∧ (∀ i x tr, Cause (some (GoError.errVal i none x tr)) = i)
    ∧ (∀ p i x tr, Cause (some (GoError.errPtr p i none x tr)) = i)
    ∧ (∀ i c x tr, Cause (some (GoError.errVal i (some c) x tr)) =
        Cause (some c))
    ∧ (∀ p i c x tr, Cause (some (GoError.errPtr p i (some c) x tr)) =
        Cause (some c))
    ∧ (∀ i c x x2 tr tr2, Cause (some (GoError.errVal i c x tr)) =
        Cause (some (GoError.errVal i c x2 tr2)))
    ∧ (∀ p p2 i c x x2 tr tr2, Cause (some (GoError.errPtr p i c x tr)) =
        Cause (some (GoError.errPtr p2 i c x2 tr2))) := by
  refine ⟨by simp [Cause], ?_, ?_, ?_, ?_, ?_, ?_, ?_, ?_, ?_⟩
  · intro i m; simp [Cause]
  · intro ms; simp [Cause]
  · intro p ms; simp [Cause]
  · intro i x tr; simp [Cause]
  · intro p i x tr; simp [Cause]
  · intro i c x tr; simp [Cause]
  · intro p i c x tr; simp [Cause]
  · intro i c x x2 tr tr2; cases c <;> simp [Cause]
  · intro p p2 i c x x2 tr tr2; cases c <;> simp [Cause]

/-- C3: at the input of TestExact, an Error wrapping a non-empty leaf with no
Cause, no Context and no captured trace renders as the leaf text followed by
three newlines, because the join inserts a separator around each of the empty
stack, Cause and Context sections; it does not render as exactly the leaf
text, contradicting the test in the repository. -/
theorem renderExact_blank_sections :
    errText (GoError.errVal (some (GoError.leaf 0 ("Hello, world")))
        none none none) = ("Hello, world\n\n\n")
    ∧ (errText (GoError.errVal (some (GoError.leaf 0 ("Hello, world")))
        none none none) == ("Hello, world")) = false := by
  have h : errText (GoError.errVal (some (GoError.leaf 0 ("Hello, world")))
      none none none) = ("Hello, world\n\n\n") := by
    simp [errText, errTextOpt]
    rfl
  exact ⟨h, by rw [h]; decide⟩

/-- C5: for every pair of Error values, the receiver Is-matches the target
exactly when the inner errors match, the Cause fields are both absent or both
present and matching, and the Context fields are both absent or both present
and matching: the whole shape must agree, not just the inner leaf. -/
theorem error_is_structural (i c x : Option GoError) (tr : Option String)
    (i2 c2 x2 : Option GoError) (tr2 : Option String) :
    selfIsM (some (GoError.errVal i c x tr)) (GoError.errVal i2 c2 x2 tr2) =
        Except.ok true ↔
      (goIs i i2 = Except.ok true
        ∧ ((c = none ∧ c2 = none)
            ∨ (c ≠ none ∧ c2 ≠ none ∧ goIs c c2 = Except.ok true))
        ∧ ((x = none ∧ x2 = none)
            ∨ (x ≠ none ∧ x2 ≠ none ∧ goIs x x2 = Except.ok true))) := by
  simp only [selfIsM, errorIsCore, exAnd_ok_true, nilPairRule_ok_true]

/-- Witness for C5 at concrete Error values sharing the same leaf and no
Cause or Context on either side. -/
theorem error_is_structural_witness :
    selfIsM (some (GoError.errVal (some (GoError.leaf 0 ("a"))) none none none))
        (GoError.errVal (some (GoError.leaf 0 ("a"))) none none none) =
      Except.ok true :=
  (error_is_structural (some (GoError.leaf 0 ("a"))) none none none
      (some (GoError.leaf 0 ("a"))) none none none).mpr
    ⟨by simp [goIs, goIsLoop, goComparable, goEqOpt, goEq],
     Or.inl ⟨rfl, rfl⟩, Or.inl ⟨rfl, rfl⟩⟩

/-- C7: after any serialization of the single-error Add calls the collector
renders with count prefix equal to the number of calls followed by the joined
member texts; every reordering of the same calls yields the same count and a
permutation of the same member texts; with pairwise distinct member texts
each occurs exactly once among the joined texts; and the untouched collector
yields no error. -/
theorem concurrent_collector (adds : List (Option GoError)) :
    ConcurrentErrText (List.foldl (fun s e => ConcurrentAdd s [e]) [] adds) =
      (if adds.length = 0 then none
       else some (toString adds.length ++ (" errors:\n    ") ++
         unjoinedTexts adds))
    ∧ (∀ adds2, List.Perm adds adds2 →
        (List.foldl (fun s e => ConcurrentAdd s [e]) [] adds2).length =
          adds.length
        ∧ List.Perm
            ((List.foldl (fun s e => ConcurrentAdd s [e]) [] adds2).map
              errTextOpt)
            (adds.map errTextOpt))
    ∧ ((adds.map errTextOpt).Nodup →
        ∀ t ∈ adds.map errTextOpt, List.count t (adds.map errTextOpt) = 1)
    ∧ ConcurrentErrText [] = none := by
  refine ⟨?_, ?_, ?_, rfl⟩
  · rw [concurrentAddAll_eq]
    rfl
  · intro adds2 hp
    rw [concurrentAddAll_eq]
    exact ⟨(List.Perm.length_eq hp).symm, (List.Perm.map errTextOpt hp).symm⟩
  · intro hd t ht
    exact List.count_eq_one_of_mem hd ht

/-- Witness for C7 at two concrete leaf errors added in both orders. -/
theorem concurrent_collector_witness :
    List.Perm
      ((List.foldl (fun s e => ConcurrentAdd s [e]) []
          [some (GoError.leaf 1 ("b")), some (GoError.leaf 0 ("a"))]).map
        errTextOpt)
      ([some (GoError.leaf 0 ("a")), some (GoError.leaf 1 ("b"))].map
        errTextOpt)
    ∧ List.count (("a"))
        ([some (GoError.leaf 0 ("a")), some (GoError.leaf 1 ("b"))].map
          errTextOpt) = 1 := by
  constructor
  · exact ((concurrent_collector
        [some (GoError.leaf 0 ("a")), some (GoError.leaf 1 ("b"))]).2.1
        [some (GoError.leaf 1 ("b")), some (GoError.leaf 0 ("a"))]
        (List.Perm.swap _ _ _)).2
  · refine (concurrent_collector
        [some (GoError.leaf 0 ("a")), some (GoError.leaf 1 ("b"))]).2.2.1
        ?_ (("a")) ?_
    · simp [errTextOpt, errText]
    · simp [errTextOpt, errText]

end SkErrors
